import Mathlib

/-!
Verification development for the spot_the_artist repository.

The repository's core verification engine (embedding encoder, reference
index, similarity scorer, decision policy, verification service) lives in
the Python backend (`backend/app`), which is not part of the checked-in
sources here; those components are modelled from the specification.  The
React frontend components (FileUpload, App) are embedded from their
JavaScript sources.
-/

namespace SpotTheArtist

/-- Modelled from the spec: an Embedding (spec section 3) is a fixed-dimension
vector of real numbers; the backend encoder producing it is missing from the
sources.  Real numbers are modelled as rationals. -/
abbrev Embedding := List ℚ

/-- Modelled from the spec: dot product of two embeddings — the similarity
metric of spec section 4.3 (cosine similarity of unit-normalized vectors). -/
def dot : Embedding → Embedding → ℚ
  | [], _ => 0
  | _ :: _, [] => 0
  | a :: as, b :: bs => a * b + dot as bs

/-- Modelled from the spec: a ReferenceEntry (spec section 3) pairs a stable
identifier with an embedding. -/
structure ReferenceEntry where
  identifier : String
  embedding : Embedding
deriving DecidableEq

/-- Modelled from the spec: a ReferenceIndex (spec section 3) is an ordered
collection of reference entries. -/
abbrev ReferenceIndex := List ReferenceEntry

/-- Modelled from the spec: the top-K aggregation constant (spec section 4.3
suggests 3). -/
def TOP_K : ℕ := 3

/-- Modelled from the spec: the calibration floor similarity, treated as 0%
confidence (spec section 4.4; the concrete value is a documented policy
choice). -/
def FLOOR : ℚ := 1 / 5

/-- Modelled from the spec: the calibration ceiling similarity, treated as
100% confidence (spec section 4.4). -/
def CEILING : ℚ := 3 / 10

/-- Modelled from the spec: the verification threshold on calibrated
confidence (spec section 4.4 suggests 75). -/
def THRESHOLD : ℚ := 75

/-- Ordering relation for the ranked results: descending by similarity. -/
def simGE (x y : String × ℚ) : Prop := y.2 ≤ x.2

instance : DecidableRel simGE := fun x y => inferInstanceAs (Decidable (y.2 ≤ x.2))

instance : IsTotal (String × ℚ) simGE := ⟨fun a b => le_total b.2 a.2⟩

instance : IsTrans (String × ℚ) simGE := ⟨fun _ _ _ h1 h2 => le_trans h2 h1⟩

/-- Modelled from the spec: the similarity of the query against every index
entry, in index order (spec section 4.3, linear scan). -/
def similarities (query : Embedding) (index : ReferenceIndex) : List (String × ℚ) :=
  index.map fun e => (e.identifier, dot query e.embedding)

/-- Modelled from the spec: ranked results sorted descending by similarity,
ties broken by insertion order (spec section 4.3); insertion sort is stable
for this relation. -/
def rankedScores (query : Embedding) (index : ReferenceIndex) : List (String × ℚ) :=
  List.insertionSort simGE (similarities query index)

/-- Modelled from the spec: the aggregate raw score — the mean of the top-K
similarities, or of all of them when fewer than K exist (spec section 4.3). -/
def aggregateScore (query : Embedding) (index : ReferenceIndex) : ℚ :=
  let top := (rankedScores query index).take TOP_K
  (top.map Prod.snd).sum / (top.length : ℚ)

/-- Modelled from the spec: the Similarity Scorer contract
score(query, index) = (aggregate, ranked) of spec section 4.3. -/
def score (query : Embedding) (index : ReferenceIndex) : ℚ × List (String × ℚ) :=
  (aggregateScore query index, rankedScores query index)

/-- Modelled from the spec: the VerificationResult record of spec section 3. -/
structure VerificationResult where
  is_verified : Bool
  confidence : ℚ
  message : String
  best_match : Option String
deriving DecidableEq

/-- Modelled from the spec: calibration of the raw aggregate into a 0-100
confidence — a linear rescale between FLOOR and CEILING, clamped at both
ends (spec section 4.4). -/
def calibrate (a : ℚ) : ℚ :=
  max 0 (min 100 ((a - FLOOR) / (CEILING - FLOOR) * 100))

/-- Modelled from the spec: the human-readable outcome message distinguishing
strong match from weak or no match (spec section 4.4). -/
def buildMessage (verified : Bool) : String :=
  if verified then "Strong match: this looks like the artist's work."
  else "Weak or no match: not recognized as the artist's work."

/-- Modelled from the spec: the Decision Policy decide(aggregate, ranked) of
spec section 4.4. -/
def decidePolicy (aggregate : ℚ) (ranked : List (String × ℚ)) : VerificationResult :=
  let conf := calibrate aggregate
  let verified := decide (THRESHOLD ≤ conf)
  { is_verified := verified
    confidence := conf
    message := buildMessage verified
    best_match := ranked.head?.map Prod.fst }

/-- Modelled from the spec: a corpus file as seen by the reference-index
builder — its name and the result of decoding plus encoding it, which is
none when the file fails to decode (spec section 4.2). -/
structure CorpusFile where
  name : String
  decoded : Option Embedding
deriving DecidableEq

/-- Modelled from the spec: the startup error taxonomy relevant to index
construction (spec section 7): EmptyCorpusError. -/
inductive BuildError where
  | emptyCorpus
deriving DecidableEq

/-- Modelled from the spec: the per-request error taxonomy (spec section 7):
EncodingError for a malformed or undecodable query image. -/
inductive VerifyError where
  | encodingError
deriving DecidableEq

/-- Modelled from the spec: one pass over the corpus files, skipping files
that fail to decode while recording a warning for each, and collecting a
reference entry for every file that decodes (spec section 4.2). -/
def collectEntries : List CorpusFile → List String × List ReferenceEntry
  | [] => ([], [])
  | f :: fs =>
    let rest := collectEntries fs
    match f.decoded with
    | some emb => (rest.1, ⟨f.name, emb⟩ :: rest.2)
    | none => (("could not decode " ++ f.name) :: rest.1, rest.2)

/-- Modelled from the spec: Reference Index construction
build(corpusDirectory) of spec section 4.2 — fails with EmptyCorpusError
when no usable entry results, otherwise returns the recorded warnings and
the index. -/
def build (files : List CorpusFile) : Except BuildError (List String × ReferenceIndex) :=
  let pair := collectEntries files
  if pair.2.isEmpty then Except.error BuildError.emptyCorpus
  else Except.ok pair

/-- A decoded in-memory query image at the service boundary, kept abstract. -/
abbrev ImageBytes := List ℕ

/-- Modelled from the spec: the Embedding Encoder contract
encode(image) of spec section 4.1, failing with EncodingError on images it
cannot decode into the expected tensor shape. -/
structure Encoder where
  encode : ImageBytes → Except VerifyError Embedding

/-- Modelled from the spec: the Verification Service state — the shared
encoder and the immutable reference index (spec sections 4.5 and 5). -/
structure Service where
  encoder : Encoder
  index : ReferenceIndex

/-- Modelled from the spec: the startup contract of spec section 6 — the
Verification Service can only be constructed once index construction
succeeds. -/
def mkService (enc : Encoder) (files : List CorpusFile) : Except BuildError Service :=
  match build files with
  | Except.error e => Except.error e
  | Except.ok pair => Except.ok ⟨enc, pair.2⟩

/-- Modelled from the spec: verify(image) of spec section 4.5, composing
encoder, scorer and policy; the service state is threaded explicitly and an
encoder failure is surfaced to the caller with the shared state returned
unchanged. -/
def verify (s : Service) (img : ImageBytes) :
    Except VerifyError VerificationResult × Service :=
  match s.encoder.encode img with
  | Except.error e => (Except.error e, s)
  | Except.ok q =>
    let pair := score q s.index
    (Except.ok (decidePolicy pair.1 pair.2), s)

/-! Frontend embedding, from the JavaScript sources under
src/frontend/src. -/

/-- A DOM File value as far as the frontend logic inspects it: its name and
MIME type. -/
structure DomFile where
  name : String
  mime : String
deriving DecidableEq

/-- The argument passed to the onImageSelect callback of the FileUpload
component: a file and a preview data URL. -/
structure Selection where
  file : DomFile
  preview : String
deriving DecidableEq

/-- The browser APIs the FileUpload handler observes, as an abstract
environment: the FileReader data URL of the selected file, whether the image
element decodes it, and the canvas re-encoding functions parameterized by
MIME type and quality (toBlob returning none models a null blob). -/
structure BrowserEnv where
  dataUrl : String
  imageDecodes : Bool
  canvasDataURL : String → ℚ → String
  canvasBlob : String → ℚ → Option (List ℕ)

/-- Helper for the extension-replacing regex of FileUpload.jsx: given the
reversed character list of a file name, returns the reversed base name when
the name ends in a dot followed by one or more characters none of which is a
dot or a slash. -/
def extSpanRev (rev : List Char) : Option (List Char) :=
  let pre := rev.takeWhile fun c => decide (c ≠ '.' ∧ c ≠ '/')
  let rest := rev.dropWhile fun c => decide (c ≠ '.' ∧ c ≠ '/')
  match pre, rest with
  | [], _ => none
  | _ :: _, '.' :: base => some base
  | _ :: _, _ => none

/-- The file-name rewrite performed by FileUpload.jsx line 27:
name.replace of the pattern dot, one-or-more non-dot non-slash characters,
end-of-string, with ".jpg". -/
def replaceExtWithJpg (s : String) : String :=
  match extSpanRev s.data.reverse with
  | some baseRev => String.mk (baseRev.reverse ++ ".jpg".data)
  | none => s

/-- JavaScript String.prototype.startsWith, modelled on the character
sequences of the strings. -/
def strStartsWith (s p : String) : Bool := p.data.isPrefixOf s.data

/-- handleFileSelect of src/frontend/src/components/FileUpload.jsx lines
8-56: for an image-MIME file, re-encode through a canvas to JPEG at quality
0.9 (renaming to a .jpg extension) and invoke onImageSelect with the
converted file and JPEG data URL; fall back to the original file and its
data URL when image decoding or blob conversion fails; do nothing for a
non-image MIME type.  The returned Option is the argument onImageSelect is
invoked with, none meaning it is never invoked. -/
def handleFileSelect (env : BrowserEnv) (file : DomFile) : Option Selection :=
  if strStartsWith file.mime "image/" then
    if env.imageDecodes then
      let jpegDataUrl := env.canvasDataURL "image/jpeg" (9 / 10)
      match env.canvasBlob "image/jpeg" (9 / 10) with
      | some _ =>
        some ⟨⟨replaceExtWithJpg file.name, "image/jpeg"⟩, jpegDataUrl⟩
      | none => some ⟨file, env.dataUrl⟩
    else some ⟨file, env.dataUrl⟩
  else none

/-- The JSON body of the gallery POST request issued by handleSaveToGallery
in the App component (src/frontend/src/components/LoadingSpinner.jsx lines
304-318). -/
structure GalleryPost where
  image_data : String
  is_verified : Bool
  confidence : ℚ
  message : String
  best_match : Option String
deriving DecidableEq

/-- The options object taken by handleSaveToGallery (LoadingSpinner.jsx line
284): overrides for the result and preview, and the auto flag. -/
structure SaveArgs where
  resultOverride : Option VerificationResult
  previewOverride : Option String
  auto : Bool

/-- The App component state read by the save paths: the last verification
result, the image preview, authentication, and the pending auto-save flag. -/
structure AppState where
  result : Option VerificationResult
  imagePreview : Option String
  isAuthenticated : Bool
  pendingAutoSave : Bool

/-- JavaScript a or b on option values: the left operand when present. -/
def firstSome {α : Type} (a b : Option α) : Option α :=
  match a with
  | some x => some x
  | none => b

/-- handleSaveToGallery of the App component
(src/frontend/src/components/LoadingSpinner.jsx lines 284-337), reduced to
the gallery POST request it issues: none when it returns early (missing
result or preview, unverified result, or unauthenticated user — the latter
opens the login modal instead), otherwise the posted body. -/
def handleSaveToGallery (st : AppState) (args : SaveArgs) : Option GalleryPost :=
  match firstSome args.resultOverride st.result,
      firstSome args.previewOverride st.imagePreview with
  | some r, some p =>
    if r.is_verified = false then none
    else if st.isAuthenticated = false then none
    else some ⟨p, r.is_verified, r.confidence, r.message, r.best_match⟩
  | some _, none => none
  | none, _ => none

/-- The auto-save effect of the App component (LoadingSpinner.jsx lines
378-391), reduced to the gallery POST it can trigger: it returns early
unless an auto-save is pending for an authenticated user with a verified
result and a preview, and otherwise calls handleSaveToGallery with the
result and preview as overrides. -/
def autoSaveEffect (st : AppState) : Option GalleryPost :=
  if st.pendingAutoSave = false ∨ st.isAuthenticated = false then none
  else
    match st.result, st.imagePreview with
    | some r, some p =>
      if r.is_verified = false then none
      else handleSaveToGallery st ⟨some r, some p, true⟩
    | some _, none => none
    | none, _ => none

/-! Helper lemmas. -/

theorem calibrate_nonneg (a : ℚ) : 0 ≤ calibrate a := le_max_left 0 _

theorem calibrate_le_hundred (a : ℚ) : calibrate a ≤ 100 :=
  max_le (by norm_num) (min_le_left _ _)

theorem calibrate_mono {a1 a2 : ℚ} (h : a1 ≤ a2) : calibrate a1 ≤ calibrate a2 := by
  unfold calibrate
  apply max_le_max le_rfl
  apply min_le_min le_rfl
  have hpos : (0 : ℚ) < CEILING - FLOOR := by norm_num [CEILING, FLOOR]
  have h1 : a1 - FLOOR ≤ a2 - FLOOR := sub_le_sub_right h _
  have h2 : (a1 - FLOOR) / (CEILING - FLOOR) ≤ (a2 - FLOOR) / (CEILING - FLOOR) :=
    (div_le_div_iff_of_pos_right hpos).mpr h1
  exact mul_le_mul_of_nonneg_right h2 (by norm_num)

theorem collectEntries_spec (files : List CorpusFile) :
    collectEntries files =
      ((files.filter fun f => f.decoded.isNone).map fun f => "could not decode " ++ f.name,
       files.filterMap fun f => f.decoded.map fun emb => ⟨f.name, emb⟩) := by
  induction files with
  | nil => rfl
  | cons f fs ih =>
    cases hf : f.decoded with
    | some emb => simp [collectEntries, hf, ih]
    | none => simp [collectEntries, hf, ih]

theorem gallery_post_verified_aux (st : AppState) (args : SaveArgs) (p : GalleryPost)
    (h : handleSaveToGallery st args = some p) : p.is_verified = true := by
  unfold handleSaveToGallery at h
  split at h
  case h_1 r pv heqr heqp =>
    by_cases hv : r.is_verified = false
    · simp [hv] at h
    · rw [if_neg hv] at h
      by_cases ha : st.isAuthenticated = false
      · simp [ha] at h
      · rw [if_neg ha] at h
        cases h
        simpa using hv
  case h_2 => exact absurd h (by simp)
  case h_3 => exact absurd h (by simp)

/-! Claim theorems. -/

/-- C2: the Decision Policy calibration from raw aggregate similarity to
confidence is non-decreasing, and its output lies in the closed interval
from 0 to 100. -/
theorem calibration_monotone_and_clamped (a1 a2 a : ℚ) (h : a1 < a2) :
    calibrate a1 ≤ calibrate a2 ∧ 0 ≤ calibrate a ∧ calibrate a ≤ 100 :=
  ⟨calibrate_mono (le_of_lt h), calibrate_nonneg a, calibrate_le_hundred a⟩

/-- Witness for C2 at the concrete raw aggregates 0, 1 and 1/4. -/
theorem calibration_monotone_and_clamped_witness :
    calibrate 0 ≤ calibrate 1 ∧ 0 ≤ calibrate (1 / 4) ∧ calibrate (1 / 4) ≤ 100 :=
  calibration_monotone_and_clamped 0 1 (1 / 4) (by norm_num)

/-- C3: the is_verified field of a Decision Policy result is true exactly
when the calibrated confidence reaches the configured threshold of 75. -/
theorem is_verified_iff_threshold (agg : ℚ) (ranked : List (String × ℚ)) :
    (decidePolicy agg ranked).is_verified = true ↔
      (decidePolicy agg ranked).confidence ≥ THRESHOLD := by
  simp [decidePolicy, ge_iff_le]

/-- C4: a corpus in which no file yields a usable embedding (including an
empty corpus) makes Reference Index construction fail with EmptyCorpusError,
so the Verification Service is never constructed and cannot serve requests. -/
theorem empty_corpus_fatal (files : List CorpusFile) (enc : Encoder) (s : Service)
    (h : ∀ f ∈ files, f.decoded = none) :
    build files = Except.error BuildError.emptyCorpus ∧
      mkService enc files ≠ Except.ok s := by
  have h2 : (collectEntries files).2 = [] := by
    rw [collectEntries_spec]
    simp only
    rw [List.filterMap_eq_nil_iff]
    intro f hf
    rw [h f hf]
    rfl
  refine ⟨?_, ?_⟩
  · simp [build, h2]
  · intro hs
    simp [mkService, build, h2] at hs

/-- Witness for C4: a one-file corpus whose only file fails to decode. -/
theorem empty_corpus_fatal_witness :
    build [⟨"bad.png", none⟩] = Except.error BuildError.emptyCorpus ∧
      mkService ⟨fun _ => Except.error VerifyError.encodingError⟩ [⟨"bad.png", none⟩] ≠
        Except.ok ⟨⟨fun _ => Except.error VerifyError.encodingError⟩, []⟩ :=
  empty_corpus_fatal [⟨"bad.png", none⟩]
    ⟨fun _ => Except.error VerifyError.encodingError⟩
    ⟨⟨fun _ => Except.error VerifyError.encodingError⟩, []⟩ (by decide)

/-- C7: a verify call whose query image fails to encode surfaces the
EncodingError to the caller and returns the shared service state (reference
index and encoder) unchanged. -/
theorem verify_encoding_error_atomic (s : Service) (img : ImageBytes)
    (h : s.encoder.encode img = Except.error VerifyError.encodingError) :
    verify s img = (Except.error VerifyError.encodingError, s) := by
  simp [verify, h]

/-- Witness for C7: a concrete service whose encoder rejects the query. -/
theorem verify_encoding_error_atomic_witness :
    verify ⟨⟨fun _ => Except.error VerifyError.encodingError⟩, [⟨"A", [1]⟩]⟩ [5] =
      (Except.error VerifyError.encodingError,
        ⟨⟨fun _ => Except.error VerifyError.encodingError⟩, [⟨"A", [1]⟩]⟩) :=
  verify_encoding_error_atomic _ _ rfl

/-- C8: every VerificationResult produced by a successful verify call has a
confidence lying in the closed interval from 0 to 100 (the remaining record
fields are well-typed by construction). -/
theorem result_confidence_in_range (s : Service) (img : ImageBytes)
    (r : VerificationResult) (s2 : Service)
    (h : verify s img = (Except.ok r, s2)) :
    0 ≤ r.confidence ∧ r.confidence ≤ 100 := by
  unfold verify at h
  cases henc : s.encoder.encode img with
  | error e => rw [henc] at h; simp at h
  | ok q =>
    rw [henc] at h
    have hr : decidePolicy (score q s.index).1 (score q s.index).2 = r := by
      have := congrArg Prod.fst h
      simpa using this
    rw [← hr]
    simp only [decidePolicy]
    exact ⟨calibrate_nonneg _, calibrate_le_hundred _⟩

/-- Witness for C8: a concrete successful verify call. -/
theorem result_confidence_in_range_witness :
    0 ≤ (⟨true, 100, "Strong match: this looks like the artist's work.",
        some "A"⟩ : VerificationResult).confidence ∧
      (⟨true, 100, "Strong match: this looks like the artist's work.",
        some "A"⟩ : VerificationResult).confidence ≤ 100 :=
  result_confidence_in_range ⟨⟨fun _ => Except.ok [1]⟩, [⟨"A", [1]⟩]⟩ [0]
    ⟨true, 100, "Strong match: this looks like the artist's work.", some "A"⟩
    ⟨⟨fun _ => Except.ok [1]⟩, [⟨"A", [1]⟩]⟩ (by
      norm_num [verify, score, aggregateScore, rankedScores, similarities, dot,
        decidePolicy, calibrate, buildMessage, FLOOR, CEILING, THRESHOLD, TOP_K,
        List.insertionSort, List.orderedInsert])

/-- C10: the App component issues a gallery POST only for a verified result;
both the manual save path and the auto-save effect return without posting
when the result is missing, the preview is missing, or is_verified is
false. -/
theorem gallery_post_only_verified (st : AppState) (args : SaveArgs) (p : GalleryPost)
    (h : handleSaveToGallery st args = some p ∨ autoSaveEffect st = some p) :
    p.is_verified = true ∧
      (firstSome args.resultOverride st.result = none →
        handleSaveToGallery st args = none) ∧
      (firstSome args.previewOverride st.imagePreview = none →
        handleSaveToGallery st args = none) := by
  refine ⟨?_, ?_, ?_⟩
  · rcases h with h | h
    · exact gallery_post_verified_aux st args p h
    · unfold autoSaveEffect at h
      split at h
      · simp at h
      · split at h
        case h_1 r pv heqr heqp =>
          by_cases hv : r.is_verified = false
          · simp [hv] at h
          · rw [if_neg hv] at h
            exact gallery_post_verified_aux st _ p h
        case h_2 => simp at h
        case h_3 => simp at h
  · intro hnone
    unfold handleSaveToGallery
    rw [hnone]
  · intro hnone
    unfold handleSaveToGallery
    rw [hnone]
    cases firstSome args.resultOverride st.result <;> rfl

/-- Witness for C10: a concrete verified save that posts, shown verified. -/
theorem gallery_post_only_verified_witness :
    (⟨"img", true, 80, "m", some "A"⟩ : GalleryPost).is_verified = true ∧
      (firstSome (none : Option VerificationResult)
          (some ⟨true, 80, "m", some "A"⟩) = none →
        handleSaveToGallery ⟨some ⟨true, 80, "m", some "A"⟩, some "img", true, true⟩
          ⟨none, none, false⟩ = none) ∧
      (firstSome (none : Option String) (some "img") = none →
        handleSaveToGallery ⟨some ⟨true, 80, "m", some "A"⟩, some "img", true, true⟩
          ⟨none, none, false⟩ = none) :=
  gallery_post_only_verified
    ⟨some ⟨true, 80, "m", some "A"⟩, some "img", true, true⟩
    ⟨none, none, false⟩ ⟨"img", true, 80, "m", some "A"⟩ (Or.inl (by decide))

/-- C6: when at least one corpus file decodes, construction does not abort:
it succeeds, records one warning naming each undecodable file, and the index
holds exactly the entries of the files that decoded successfully. -/
theorem build_skips_undecodable (files : List CorpusFile) (g : CorpusFile)
    (hg : g ∈ files) (hdec : g.decoded.isSome = true) :
    build files = Except.ok
      ((files.filter fun f => f.decoded.isNone).map fun f => "could not decode " ++ f.name,
       files.filterMap fun f => f.decoded.map fun emb => ⟨f.name, emb⟩) := by
  obtain ⟨emb, he⟩ := Option.isSome_iff_exists.mp hdec
  have hmem : (⟨g.name, emb⟩ : ReferenceEntry) ∈
      files.filterMap fun f => f.decoded.map fun emb => ⟨f.name, emb⟩ :=
    List.mem_filterMap.mpr ⟨g, hg, by rw [he]; rfl⟩
  have hne := List.ne_nil_of_mem hmem
  rw [build, collectEntries_spec]
  simp only [List.isEmpty_eq_true]
  rw [if_neg hne]

/-- Witness for C6: a corpus with one decodable and one undecodable file. -/
theorem build_skips_undecodable_witness :
    build [⟨"good.jpg", some [1]⟩, ⟨"bad.png", none⟩] = Except.ok
      ((([⟨"good.jpg", some [1]⟩, ⟨"bad.png", none⟩] : List CorpusFile).filter
          fun f => f.decoded.isNone).map fun f => "could not decode " ++ f.name,
       ([⟨"good.jpg", some [1]⟩, ⟨"bad.png", none⟩] : List CorpusFile).filterMap
          fun f => f.decoded.map fun emb => ⟨f.name, emb⟩) :=
  build_skips_undecodable [⟨"good.jpg", some [1]⟩, ⟨"bad.png", none⟩]
    ⟨"good.jpg", some [1]⟩ (by decide) (by decide)

/-- C5: a successful verify call against a non-empty index returns a result
whose best_match is populated with the identifier of the single
highest-ranked reference entry, independent of is_verified. -/
theorem best_match_highest_ranked (s : Service) (img : ImageBytes) (q : Embedding)
    (hq : s.encoder.encode img = Except.ok q) (hne : s.index ≠ []) :
    ∃ r e, verify s img = (Except.ok r, s) ∧ e ∈ s.index ∧
      r.best_match = some e.identifier ∧
      ∀ f ∈ s.index, dot q f.embedding ≤ dot q e.embedding := by
  have hlen : (rankedScores q s.index).length = s.index.length := by
    rw [rankedScores, (List.perm_insertionSort simGE (similarities q s.index)).length_eq,
      similarities, List.length_map]
  cases hrk : rankedScores q s.index with
  | nil =>
    rw [hrk] at hlen
    exact absurd (List.length_eq_zero.mp hlen.symm) hne
  | cons hd tl =>
    have hmem : hd ∈ similarities q s.index := by
      have hh : hd ∈ rankedScores q s.index := by
        rw [hrk]; exact List.mem_cons_self hd tl
      exact (List.perm_insertionSort simGE (similarities q s.index)).subset hh
    obtain ⟨e, he, heq⟩ := List.mem_map.mp hmem
    subst heq
    refine ⟨decidePolicy (score q s.index).1 (score q s.index).2, e, ?_, he, ?_, ?_⟩
    · simp [verify, hq]
    · simp [score, decidePolicy, hrk]
    · intro f hf
      have hfmem : (f.identifier, dot q f.embedding) ∈ rankedScores q s.index :=
        (List.perm_insertionSort simGE (similarities q s.index)).symm.subset
          (List.mem_map.mpr ⟨f, hf, rfl⟩)
      rw [hrk] at hfmem
      have hsorted := List.sorted_insertionSort simGE (similarities q s.index)
      rw [show List.insertionSort simGE (similarities q s.index) =
        rankedScores q s.index from rfl, hrk] at hsorted
      rcases List.mem_cons.mp hfmem with hcase | hcase
      · exact le_of_eq (congrArg Prod.snd hcase)
      · exact List.rel_of_sorted_cons hsorted _ hcase

/-- Witness for C5: a concrete service where entry A outranks entry B. -/
theorem best_match_highest_ranked_witness :
    ∃ r e, verify ⟨⟨fun _ => Except.ok [1, 0]⟩, [⟨"A", [1, 0]⟩, ⟨"B", [0, 1]⟩]⟩ [7] =
        (Except.ok r, ⟨⟨fun _ => Except.ok [1, 0]⟩, [⟨"A", [1, 0]⟩, ⟨"B", [0, 1]⟩]⟩) ∧
      e ∈ (⟨⟨fun _ => Except.ok [1, 0]⟩,
          [⟨"A", [1, 0]⟩, ⟨"B", [0, 1]⟩]⟩ : Service).index ∧
      r.best_match = some e.identifier ∧
      ∀ f ∈ (⟨⟨fun _ => Except.ok [1, 0]⟩,
          [⟨"A", [1, 0]⟩, ⟨"B", [0, 1]⟩]⟩ : Service).index,
        dot [1, 0] f.embedding ≤ dot [1, 0] e.embedding :=
  best_match_highest_ranked _ _ [1, 0] rfl (by decide)

/-- C1: for a non-empty index the aggregate score equals the arithmetic mean
of the K largest similarities — the first K entries of any descending-sorted
arrangement of the similarity values — and equals the mean over all of them
when the index has fewer than K entries. -/
theorem aggregate_topK_mean (query : Embedding) (index : ReferenceIndex) (s : List ℚ)
    (_hne : index ≠ [])
    (hperm : s.Perm ((similarities query index).map Prod.snd))
    (hsort : s.Sorted fun a b => b ≤ a) :
    aggregateScore query index =
        (s.take TOP_K).sum / ((min TOP_K index.length : ℕ) : ℚ) ∧
      (index.length < TOP_K →
        aggregateScore query index = s.sum / (index.length : ℚ)) := by
  have hpermRanked : ((rankedScores query index).map Prod.snd).Perm s :=
    ((List.perm_insertionSort simGE (similarities query index)).map Prod.snd).trans
      hperm.symm
  have hsortRanked : ((rankedScores query index).map Prod.snd).Sorted
      fun a b => b ≤ a :=
    List.Pairwise.map Prod.snd (fun a b hab => hab)
      (List.sorted_insertionSort simGE (similarities query index))
  haveI : IsAntisymm ℚ (fun a b => b ≤ a) := ⟨fun a b h1 h2 => le_antisymm h2 h1⟩
  have heq : (rankedScores query index).map Prod.snd = s :=
    List.eq_of_perm_of_sorted hpermRanked hsortRanked hsort
  have hlen : (rankedScores query index).length = index.length := by
    rw [rankedScores, (List.perm_insertionSort simGE (similarities query index)).length_eq,
      similarities, List.length_map]
  have hslen : s.length = index.length := by
    rw [← heq, List.length_map, hlen]
  have hmain : aggregateScore query index =
      (s.take TOP_K).sum / ((min TOP_K index.length : ℕ) : ℚ) := by
    simp only [aggregateScore]
    rw [List.map_take, heq, List.length_take, hlen]
  refine ⟨hmain, fun hlt => ?_⟩
  rw [hmain, Nat.min_eq_right (le_of_lt hlt),
    List.take_of_length_le (le_of_lt (hslen ▸ hlt))]

/-- Witness for C1: a two-entry index, exercising the fewer-than-K case. -/
theorem aggregate_topK_mean_witness :
    aggregateScore [1, 2] [⟨"A", [1, 0]⟩, ⟨"B", [0, 1]⟩] =
        (([(2 : ℚ), 1]).take TOP_K).sum /
          ((min TOP_K ([⟨"A", [1, 0]⟩, ⟨"B", [0, 1]⟩] : ReferenceIndex).length : ℕ) : ℚ) ∧
      (([⟨"A", [1, 0]⟩, ⟨"B", [0, 1]⟩] : ReferenceIndex).length < TOP_K →
        aggregateScore [1, 2] [⟨"A", [1, 0]⟩, ⟨"B", [0, 1]⟩] =
          ([(2 : ℚ), 1]).sum /
            ((([⟨"A", [1, 0]⟩, ⟨"B", [0, 1]⟩] : ReferenceIndex).length : ℕ) : ℚ)) :=
  aggregate_topK_mean [1, 2] [⟨"A", [1, 0]⟩, ⟨"B", [0, 1]⟩] [2, 1]
    (by decide)
    (by
      have hmap : (similarities [1, 2] [⟨"A", [1, 0]⟩, ⟨"B", [0, 1]⟩]).map Prod.snd
          = [1, 2] := by
        norm_num [similarities, dot]
      rw [hmap]
      exact List.Perm.swap 1 2 [])
    (by decide)

theorem takeWhile_append_of_all {α : Type} (p : α → Bool) (l1 l2 : List α)
    (h : ∀ c ∈ l1, p c = true) :
    (l1 ++ l2).takeWhile p = l1 ++ l2.takeWhile p := by
  induction l1 with
  | nil => simp
  | cons a l ih =>
    have ha := h a (List.mem_cons_self a l)
    simp [List.takeWhile_cons, ha, ih fun c hc => h c (List.mem_cons_of_mem a hc)]

theorem dropWhile_append_of_all {α : Type} (p : α → Bool) (l1 l2 : List α)
    (h : ∀ c ∈ l1, p c = true) :
    (l1 ++ l2).dropWhile p = l2.dropWhile p := by
  induction l1 with
  | nil => simp
  | cons a l ih =>
    have ha := h a (List.mem_cons_self a l)
    simp [List.dropWhile_cons, ha, ih fun c hc => h c (List.mem_cons_of_mem a hc)]

theorem extSpanRev_spec (extRev baseRev : List Char) (hne : extRev ≠ [])
    (hok : ∀ c ∈ extRev, ¬(c = '.' ∨ c = '/')) :
    extSpanRev (extRev ++ '.' :: baseRev) = some baseRev := by
  have hall : ∀ c ∈ extRev, (fun c => decide (c ≠ '.' ∧ c ≠ '/')) c = true := by
    intro c hc
    have hc2 := hok c hc
    push_neg at hc2
    simp [hc2.1, hc2.2]
  have hdot : decide (('.' : Char) ≠ '.' ∧ ('.' : Char) ≠ '/') = false := by decide
  unfold extSpanRev
  rw [takeWhile_append_of_all _ extRev ('.' :: baseRev) hall,
    dropWhile_append_of_all _ extRev ('.' :: baseRev) hall,
    List.takeWhile_cons, List.dropWhile_cons, hdot]
  cases extRev with
  | nil => exact absurd rfl hne
  | cons c cs => rfl

/-- C9: the FileUpload handler re-encodes an image-MIME file to JPEG at
quality 0.9 under a name whose extension is replaced by .jpg before invoking
onImageSelect, falls back to the original file and its data URL when image
decoding or blob conversion fails, and never invokes onImageSelect for a
non-image MIME type. -/
theorem fileUpload_select_spec (env : BrowserEnv) (file : DomFile) (base ext : String)
    (hext : ext.data ≠ [])
    (hchars : ∀ c ∈ ext.data, ¬(c = '.' ∨ c = '/')) :
    (strStartsWith file.mime "image/" = false → handleFileSelect env file = none) ∧
    (strStartsWith file.mime "image/" = true → env.imageDecodes = true →
      (env.canvasBlob "image/jpeg" (9 / 10)).isSome = true →
      handleFileSelect env file =
        some ⟨⟨replaceExtWithJpg file.name, "image/jpeg"⟩,
          env.canvasDataURL "image/jpeg" (9 / 10)⟩) ∧
    (strStartsWith file.mime "image/" = true →
      (env.imageDecodes = false ∨ env.canvasBlob "image/jpeg" (9 / 10) = none) →
      handleFileSelect env file = some ⟨file, env.dataUrl⟩) ∧
    replaceExtWithJpg (base ++ "." ++ ext) = base ++ ".jpg" := by
  refine ⟨?_, ?_, ?_, ?_⟩
  · intro hmime
    simp [handleFileSelect, hmime]
  · intro hmime hdec hblob
    obtain ⟨b, hb⟩ := Option.isSome_iff_exists.mp hblob
    simp [handleFileSelect, hmime, hdec, hb]
  · intro hmime hfail
    rcases hfail with hfail | hfail
    · simp [handleFileSelect, hmime, hfail]
    · by_cases hdec : env.imageDecodes = true
      · simp [handleFileSelect, hmime, hdec, hfail]
      · rw [Bool.not_eq_true] at hdec
        simp [handleFileSelect, hmime, hdec]
  · have hrev : (base ++ "." ++ ext).data.reverse =
        ext.data.reverse ++ '.' :: base.data.reverse := by
      simp [String.data_append, List.reverse_append]
    have hspan := extSpanRev_spec ext.data.reverse base.data.reverse
      (by simpa using hext) (fun c hc => hchars c (List.mem_reverse.mp hc))
    unfold replaceExtWithJpg
    rw [hrev, hspan]
    show String.mk (base.data.reverse.reverse ++ ".jpg".data) = base ++ ".jpg"
    rw [List.reverse_reverse]
    cases base with
    | mk l => rfl

/-- Witness for C9: a PNG file converted through a succeeding canvas. -/
theorem fileUpload_select_spec_witness :
    handleFileSelect ⟨"origurl", true, fun _ _ => "jpegurl", fun _ _ => some []⟩
        ⟨"photo.png", "image/png"⟩ =
      some ⟨⟨"photo.jpg", "image/jpeg"⟩, "jpegurl"⟩ ∧
      replaceExtWithJpg ("photo" ++ "." ++ "png") = "photo" ++ ".jpg" := by
  have h := fileUpload_select_spec
    ⟨"origurl", true, fun _ _ => "jpegurl", fun _ _ => some []⟩
    ⟨"photo.png", "image/png"⟩ "photo" "png" (by decide) (by decide)
  refine ⟨?_, h.2.2.2⟩
  have h2 := h.2.1 (by decide) rfl rfl
  rw [h2]
  have hname : replaceExtWithJpg "photo.png" = "photo.jpg" := by decide
  rw [hname]

end SpotTheArtist
